import Mathlib

/-!
Verification development for the RaF (Refer-a-Friend) Telegram contest bot.

Shallow embedding of the contest lifecycle and referral-crediting core:
the data model and SQLite schema constraints (src/persistence/db.rs,
src/persistence/types.rs), the ranking queries (src/telegram/contests.rs,
src/telegram/commands.rs), the invitation-acceptance and contest
stop/delete flows of the callback handler (src/telegram/handlers.rs),
the referral token codec (base64url over a query string,
src/telegram/commands.rs), and the contest-from-text parser
(src/telegram/contests.rs).

Machine integers (Rust `i64`) are modelled as `Int`; timestamps
(`DateTime<Utc>`) as `Int` seconds since the Unix epoch.  The external
SQLite store is modelled by explicit list-backed tables together with the
uniqueness / NOT NULL / foreign-key checks the schema declares; external
Telegram API calls are modelled as `Except`-valued inputs.
-/

deriving instance DecidableEq for Except

namespace Raf

/-! ### Data model (src/persistence/types.rs, schema in src/persistence/db.rs) -/

/-- A user of the bot (table `users`). -/
structure User where
  id : Int
  first_name : String
  last_name : Option String
  username : Option String
deriving DecidableEq, Repr

/-- A registered channel or (super)group (table `channels`). -/
structure Channel where
  id : Int
  registered_by : Int
  link : String
  name : String
deriving DecidableEq, Repr

/-- A referral contest (table `contests`).  The SQL column `end` is named
`endDate` here because `end` is a Lean keyword.  `id` is locally generated
(AUTOINCREMENT); timestamps are UTC seconds. -/
structure Contest where
  id : Int
  name : String
  prize : String
  endDate : Int
  started_at : Option Int
  stopped : Bool
  chan : Int
deriving DecidableEq, Repr

/-- A credited invitation (table `invitations`).  The AUTOINCREMENT `id` and
the defaulted `date` column play no role in any claim and are omitted. -/
structure Invitation where
  source : Int
  dest : Int
  chan : Int
  contest : Int
deriving DecidableEq, Repr

/-- A row of the auxiliary table `being_contacted_users` (the spec's
`PendingWinnerContact`).  Schema:
`user INTEGER NOT NULL, owner INTEGER NOT NULL, contest INTEGER NOT NULL,
contacted BOOL NOT NULL DEFAULT FALSE`.  The `contest` field is `Option`
so that an INSERT that does not supply the column yields `none` (SQL NULL),
to be rejected by the NOT NULL check. -/
structure BeingContactedUser where
  user : Int
  owner : Int
  contest : Option Int
  contacted : Bool
deriving DecidableEq, Repr

/-- The persistent store: one list per table touched by the claims. -/
structure Db where
  users : List User
  channels : List Channel
  contests : List Contest
  invitations : List Invitation
deriving DecidableEq, Repr

/-- `contests::get` (src/telegram/contests.rs:34):
`SELECT ... FROM contests WHERE id = ?`, first row or `None`. -/
def getContest (db : Db) (id : Int) : Option Contest :=
  db.contests.find? (fun c => c.id == id)

/-- `users::get`: `SELECT ... FROM users WHERE id = ?`, first row or `None`. -/
def getUser (db : Db) (uid : Int) : Option User :=
  db.users.find? (fun u => u.id == uid)

/-- `INSERT INTO invitations(source, dest, chan, contest) VALUES(?, ?, ?, ?)`
(src/telegram/handlers.rs:312) checked against the schema constraints of
`invitations`: `CHECK (source <> dest)`, `UNIQUE(source, dest, chan)` and
the four foreign keys (`PRAGMA foreign_keys=1` is set by
`persistence::db::connection`). -/
def insertInvitation (db : Db) (inv : Invitation) : Except String Db :=
  if inv.source == inv.dest then
    .error "CHECK constraint failed: source <> dest"
  else if db.invitations.any
      (fun i => i.source == inv.source && i.dest == inv.dest && i.chan == inv.chan) then
    .error "UNIQUE constraint failed: invitations.source, invitations.dest, invitations.chan"
  else if !(db.users.any (fun u => u.id == inv.source)) ||
          !(db.users.any (fun u => u.id == inv.dest)) ||
          !(db.channels.any (fun c => c.id == inv.chan)) ||
          !(db.contests.any (fun c => c.id == inv.contest)) then
    .error "FOREIGN KEY constraint failed"
  else
    .ok { db with invitations := db.invitations ++ [inv] }

/-- `DELETE FROM contests WHERE id = ?` (src/telegram/handlers.rs:809)
checked against the foreign key `invitations.contest REFERENCES contests(id)`:
with `PRAGMA foreign_keys=1`, deleting a contest still referenced by an
invitation fails and mutates nothing. -/
def deleteContest (db : Db) (id : Int) : Except String Db :=
  if db.invitations.any (fun i => i.contest == id) then
    .error "FOREIGN KEY constraint failed"
  else
    .ok { db with contests := db.contests.filter (fun c => !(c.id == id)) }

/-- The store state after the `delete_contest` callback branch: a failed SQL
DELETE leaves the database unchanged (the handler only reports the error). -/
def dbAfterDeleteContest (db : Db) (id : Int) : Db :=
  match deleteContest db id with
  | .ok db2 => db2
  | .error _ => db

/-- `INSERT INTO being_contacted_users(user, owner) VALUES(?, ?)`
(src/telegram/handlers.rs:616).  The statement supplies no value for the
`contest` column, so that column receives SQL NULL; the row is then checked
against the schema of `being_contacted_users`, whose `contest` column is
declared `INTEGER NOT NULL` with no DEFAULT (src/persistence/db.rs:76). -/
def insertBeingContactedUsers (rows : List BeingContactedUser) (user owner : Int) :
    Except String (List BeingContactedUser) :=
  let row : BeingContactedUser := { user := user, owner := owner, contest := none, contacted := false }
  if row.contest.isSome then
    .ok (rows ++ [row])
  else
    .error "NOT NULL constraint failed: being_contacted_users.contest"

/-! ### Telegram membership results (telexide `ChatMember`) -/

/-- The variants of telexide's `ChatMember` matched by the handler. -/
inductive ChatMember
  | administrator
  | creator
  | member
  | restricted
  | kicked
  | left
deriving DecidableEq, Repr

/-- The `member_joined` closure of the accept branch
(src/telegram/handlers.rs:196): Administrator, Creator, Member and
Restricted count as joined; Kicked and Left do not. -/
def memberJoined : ChatMember → Bool
  | .administrator => true
  | .creator => true
  | .member => true
  | .restricted => true
  | .kicked => false
  | .left => false

/-! ### Ranking engine (src/telegram/contests.rs `ranking`,
src/telegram/commands.rs `rank`) -/

/-- First-occurrence deduplication, modelling the one row per group that
`GROUP BY` produces. -/
def dedupFirst (l : List Int) : List Int :=
  l.foldl (fun acc x => if x ∈ acc then acc else acc ++ [x]) []

/-- The inner query of `ranking`
(`SELECT COUNT(*) AS c, source FROM invitations WHERE contest = ? GROUP BY source`):
one `(count, source)` pair per distinct source among the contest's
invitations. -/
def groupCounts (invs : List Invitation) (cid : Int) : List (Nat × Int) :=
  let rel := invs.filter (fun i => i.contest == cid)
  (dedupFirst (rel.map (fun i => i.source))).map
    (fun s => ((rel.filter (fun i => i.source == s)).length, s))

/-- The sort key of `ROW_NUMBER() OVER (ORDER BY t.c, t.source DESC)`
(src/telegram/contests.rs:116): count ascending (no DESC on `t.c`),
then source descending. -/
def rankBefore (a b : Nat × Int) : Bool :=
  decide (a.1 < b.1 ∨ (a.1 = b.1 ∧ b.2 < a.2))

/-- Insertion into a list sorted by `rankBefore`. -/
def insertRanked (x : Nat × Int) : List (Nat × Int) → List (Nat × Int)
  | [] => [x]
  | y :: ys => if rankBefore x y then x :: y :: ys else y :: insertRanked x ys

/-- Sort by the window's ORDER BY clause.  The clause is a total order on the
grouped rows (sources are pairwise distinct), so the result does not depend
on the unspecified row order SQLite feeds into the window. -/
def sortRanked (l : List (Nat × Int)) : List (Nat × Int) :=
  l.foldr insertRanked []

/-- The rows returned by `contests::ranking` (src/telegram/contests.rs:108):
`(ROW_NUMBER, count, source)` triples, numbered along
`ORDER BY t.c, t.source DESC`. -/
def rankingRows (invs : List Invitation) (cid : Int) : List (Nat × Nat × Int) :=
  (sortRanked (groupCounts invs cid)).enum.map (fun p => (p.1 + 1, p.2.1, p.2.2))

/-- A row of the `ranking` result (`persistence::types::Rank`). -/
structure Rank where
  rank : Nat
  invites : Nat
  user : User
deriving DecidableEq, Repr

/-- `contests::ranking` including the `users::get(...).unwrap()` per row:
`none` models the panic when a source user is missing from `users`. -/
def ranking (db : Db) (cid : Int) : Option (List Rank) :=
  (rankingRows db.invitations cid).mapM
    (fun r => (getUser db r.2.2).map (fun u => Rank.mk r.1 r.2.1 u))

/-- The query of the `/rank` command (src/telegram/commands.rs:54):
`SELECT ROW_NUMBER() OVER (ORDER BY t.c, t.source DESC) AS r, t.contest
 FROM (SELECT COUNT(*) AS c, contest, source FROM invitations
       GROUP BY contest, source) AS t WHERE t.source = ?`.
The WHERE filter is applied before the window function, so the row numbers
are computed over the sender's own `(contest, source)` groups only.
Returns `(rowNumber, contest)` pairs. -/
def rankCommandRows (invs : List Invitation) (sender : Int) : List (Nat × Int) :=
  let pairs :=
    (invs.foldl (fun acc i =>
        if (i.contest, i.source) ∈ acc then acc else acc ++ [(i.contest, i.source)]) [])
  let t := pairs.map (fun p => ((invs.filter
      (fun i => i.contest == p.1 && i.source == p.2)).length, p.1, p.2))
  let filtered := t.filter (fun r => r.2.2 == sender)
  let sorted := (filtered.map (fun r => (r.1, r.2.2))).foldr insertRanked []
  (sorted.enum.map (fun p => (p.1 + 1, p.2))).map
    (fun r => (r.1, ((filtered.find? (fun row => row.1 == r.2.1 && row.2.2 == sender)).map
        (fun row => row.2.1)).getD 0))

/-! ### Membership pruning before finalization
(src/telegram/contests.rs `validate_users`) -/

/-- `contests::validate_users` (src/telegram/contests.rs:264): collects the
`dest` of every invitation of the contest, asks `get_chat_member` for each,
and runs `DELETE FROM invitations WHERE dest = ? and contest = ?` exactly
when the API call returned an error (`in_channel = member.is_ok()`); an `Ok`
result keeps the invitation regardless of the `ChatMember` variant. -/
def validate_users (mem : Int → Except String ChatMember) (invs : List Invitation)
    (cid : Int) : List Invitation :=
  let users := (invs.filter (fun i => i.contest == cid)).map (fun i => i.dest)
  users.foldl
    (fun acc u =>
      if (mem u).isOk then acc
      else acc.filter (fun i => !(i.dest == u && i.contest == cid)))
    invs

/-! ### Accept-invitation flow (src/telegram/handlers.rs:184-359) -/

/-- Outcome of one run of the accept branch of the callback handler. -/
inductive AcceptOutcome
  | alreadyMember
  | initialCheckError
  | panicked
  | notJoinedTimeout
  | contestMissing
  | contestFinished
  | insertFailed
  | inserted
deriving DecidableEq, Repr

/-- The accept branch of `callback` (src/telegram/handlers.rs:184-359).
`before` is the result of the `get_chat_member` call made on the click,
`after` the result of the call made after the 10-second sleep.
Per the source: an initial `Ok` joined member ends with an "already a
member" message; an initial `Err` sends the error text and returns; after
the sleep the code runs `member_joined(member.unwrap())`, so an `Err` there
panics; a joined member then looks the contest up, rejects when
`now > contest.end`, and otherwise attempts the INSERT — there is no check
of `started_at` or `stopped`. -/
def acceptFlow (before after : Except String ChatMember) (now : Int) (db : Db)
    (source dest chanId cid : Int) : AcceptOutcome × Db :=
  match before with
  | .error _ => (.initialCheckError, db)
  | .ok m =>
    if memberJoined m then (.alreadyMember, db)
    else
      match after with
      | .error _ => (.panicked, db)
      | .ok m2 =>
        if memberJoined m2 then
          match getContest db cid with
          | none => (.contestMissing, db)
          | some c =>
            if now > c.endDate then (.contestFinished, db)
            else
              match insertInvitation db (Invitation.mk source dest chanId cid) with
              | .error _ => (.insertFailed, db)
              | .ok db2 => (.inserted, db2)
        else (.notJoinedTimeout, db)

/-- The conditions under which the accept branch actually inserts an
invitation, stated from the code: initial check returns a non-joined
`ChatMember`, the re-check returns a joined one, the contest row exists,
`now ≤ contest.end`, and the INSERT passes the store constraints.
Used to compare `acceptFlow` against the claim. -/
def acceptInsertsSpec (before after : Except String ChatMember) (now : Int) (db : Db)
    (source dest chanId cid : Int) : Bool :=
  (match before with | .ok m => !memberJoined m | .error _ => false) &&
  (match after with | .ok m2 => memberJoined m2 | .error _ => false) &&
  (match getContest db cid with
   | some c => decide (now ≤ c.endDate)
   | none => false) &&
  (insertInvitation db (Invitation.mk source dest chanId cid)).isOk

/-! ### Stop-contest finalization (src/telegram/handlers.rs:470-631) -/

/-- Outcome of the `stop_contest` branch of the callback handler. -/
inductive StopOutcome
  | panickedMissingContest
  | panickedUserLookup
  | alreadyStopped
  | noParticipants
  | winnerDirect (username : String)
  | winnerViaBotFailed (insertError : String)
  | winnerViaBotRecorded
deriving DecidableEq, Repr

/-- The `stop_contest` branch (src/telegram/handlers.rs:470-631):
`contests::get(...).unwrap()` (panic when missing); an already stopped
contest is reported and nothing changes; otherwise `validate_users` runs
first, the contest is marked stopped (`UPDATE contests SET stopped = TRUE`),
the ranking is computed, an empty ranking reports "no participants", and
otherwise the winner is `rank[0]`: with a public username the owner is told
to contact them directly, without one the handler attempts the
`being_contacted_users` INSERT (a failure is logged and swallowed). -/
def stopContest (mem : Int → Except String ChatMember) (db : Db)
    (bcu : List BeingContactedUser) (cid sender : Int) :
    StopOutcome × Db × List BeingContactedUser :=
  match getContest db cid with
  | none => (.panickedMissingContest, db, bcu)
  | some c =>
    if c.stopped then (.alreadyStopped, db, bcu)
    else
      let invs := validate_users mem db.invitations cid
      let db2 : Db :=
        { db with
          invitations := invs,
          contests := db.contests.map
            (fun x => if x.id == cid then { x with stopped := true } else x) }
      match ranking db2 cid with
      | none => (.panickedUserLookup, db2, bcu)
      | some rank =>
        match rank with
        | [] => (.noParticipants, db2, bcu)
        | winner :: _ =>
          match winner.user.username with
          | some uname => (.winnerDirect uname, db2, bcu)
          | none =>
            match insertBeingContactedUsers bcu winner.user.id sender with
            | .error e => (.winnerViaBotFailed e, db2, bcu)
            | .ok bcu2 => (.winnerViaBotRecorded, db2, bcu2)

/-! ### Character-level string helpers

The Rust code works with `&str` splitting and parsing; these helpers model
the same operations over `List Char` so that everything reduces inside the
kernel. -/

/-- Split a list at every element satisfying `p`, keeping empty pieces
(the semantics of Rust's `str::split` / slice `split`). -/
def splitOnPred {α : Type} (p : α → Bool) : List α → List (List α)
  | [] => [[]]
  | c :: rest =>
    if p c then [] :: splitOnPred p rest
    else
      match splitOnPred p rest with
      | h :: t => (c :: h) :: t
      | [] => [[c]]

/-- The non-empty whitespace-separated tokens of a string (the semantics of
Rust's `split_ascii_whitespace` / `split_whitespace` iterators, which skip
empty tokens). -/
def wsTokens (s : String) : List (List Char) :=
  (splitOnPred Char.isWhitespace s.data).filter (fun t => !t.isEmpty)

/-- Digit run to its numeric value. -/
def digitsVal (cs : List Char) : Option Nat :=
  if cs.isEmpty || !(cs.all Char.isDigit) then none
  else some (cs.foldl (fun a c => a * 10 + (c.toNat - 48)) 0)

/-- Rust's `str::parse::<i64>`: optional sign followed by at least one
decimal digit.  (The `i64` overflow bound is not modelled; no claim
exercises it.) -/
def charsToInt (cs : List Char) : Option Int :=
  match cs with
  | '+' :: ds => (digitsVal ds).map Int.ofNat
  | '-' :: ds => (digitsVal ds).map (fun n => -(n : Int))
  | ds => (digitsVal ds).map Int.ofNat

/-! ### Callback-data parsing (src/telegram/handlers.rs:36-146) -/

/-- The intent decoded from one callback `data` string, or how decoding
ends: `reject` answers with an "Ok, doing nothing." alert; `noop` is the
final `else` branch that answers with the empty acknowledgement and returns
without touching any state; `panicked` models the `unwrap()` calls on a
missing or non-numeric argument token. -/
inductive CallbackParse
  | accept (source dest chan contest : Int)
  | reject
  | manage (chan : Int)
  | mainMenu (chan : Int)
  | create (chan : Int)
  | deleteContestEv (chan contest : Int)
  | startContestEv (chan contest : Int)
  | stopContestEv (chan contest : Int)
  | delete (chan : Int)
  | stop (chan : Int)
  | start (chan : Int)
  | list (chan : Int)
  | noop
  | panicked
deriving DecidableEq, Repr

/-- `iter.next().unwrap().parse().unwrap()`: the `i`-th whitespace token
of `data` parsed as an integer, or a panic. -/
def argInt (ts : List (List Char)) (i : Nat) : Option Int :=
  (ts.get? i).bind charsToInt

/-- Rust's `str::starts_with`: `p` is an initial segment of `s`. -/
def leadsWith (p : String) (s : String) : Bool :=
  s.data.take p.data.length == p.data

/-- The dispatch chain at the top of `callback`
(src/telegram/handlers.rs:51-146), in source order: `data.contains('✅')`,
`data.contains('❌')`, then `starts_with` tests for `manage`, `main`,
`create`, `delete_contest`, `start_contest`, `stop_contest`, `delete`,
`stop`, `start`, `list`; anything else answers the callback with the empty
text and returns.  Every argument is read from the whitespace tokens with
`unwrap()` on both the token and its integer parse. -/
def parseCallback (data : String) : CallbackParse :=
  let ts := wsTokens data
  let one (k : Int → CallbackParse) : CallbackParse :=
    match argInt ts 1 with
    | some a => k a
    | none => .panicked
  let two (k : Int → Int → CallbackParse) : CallbackParse :=
    match argInt ts 1, argInt ts 2 with
    | some a, some b => k a b
    | _, _ => .panicked
  if data.data.contains '✅' then
    match argInt ts 1, argInt ts 2, argInt ts 3, argInt ts 4 with
    | some s, some d, some ch, some co => .accept s d ch co
    | _, _, _, _ => .panicked
  else if data.data.contains '❌' then .reject
  else if leadsWith "manage" data then one .manage
  else if leadsWith "main" data then one .mainMenu
  else if leadsWith "create" data then one .create
  else if leadsWith "delete_contest" data then two .deleteContestEv
  else if leadsWith "start_contest" data then two .startContestEv
  else if leadsWith "stop_contest" data then two .stopContestEv
  else if leadsWith "delete" data then one .delete
  else if leadsWith "stop" data then one .stop
  else if leadsWith "start" data then one .start
  else if leadsWith "list" data then one .list
  else .noop

/-! ### Date-time parsing for `from_text`

`contests::from_text` parses the second line with chrono's
`DateTime::parse_from_str(.., "%Y-%m-%d %H:%M:%S %#z")`
(src/telegram/contests.rs:206).  chrono is an external collaborator; the
format is modelled literally: four fields of decimal digits separated by
`-`, `-`, ` `, then `hh:mm:ss`, a space, and a UTC offset `±HH`, `±HHMM`
or `±HH:MM` (the permissive `%#z` also accepts `Z`/`z`), with calendar
validation and full input consumption.  The result is the UTC timestamp in
seconds. -/

/-- Gregorian leap year. -/
def isLeapYear (y : Nat) : Bool :=
  (y % 4 == 0 && y % 100 != 0) || y % 400 == 0

/-- Days in a month, with February depending on the leap rule. -/
def daysInMonth (y mo : Nat) : Nat :=
  if mo == 2 then (if isLeapYear y then 29 else 28)
  else if mo == 4 || mo == 6 || mo == 9 || mo == 11 then 30
  else 31

/-- Days between 1970-01-01 and the given civil date (Howard Hinnant's
`days_from_civil` algorithm, using floor division). -/
def daysFromCivil (y : Int) (mo d : Nat) : Int :=
  let yy : Int := if mo ≤ 2 then y - 1 else y
  let era : Int := Int.fdiv yy 400
  let yoe : Int := yy - era * 400
  let mp : Nat := if mo > 2 then mo - 3 else mo + 9
  let doy : Int := ((153 * mp + 2) / 5 + d - 1 : Nat)
  let doe : Int := yoe * 365 + yoe / 4 - yoe / 100 + doy
  era * 146097 + doe - 719468

/-- UTC seconds of a civil date-time with a fixed offset subtracted. -/
def epochSeconds (y : Int) (mo d h mi s : Nat) (offset : Int) : Int :=
  daysFromCivil y mo d * 86400 + (h * 3600 + mi * 60 + s : Nat) - offset

/-- Consume one expected character. -/
def expectChar (c : Char) : List Char → Option (List Char)
  | x :: rest => if x == c then some rest else none
  | [] => none

/-- Split off the leading digit run. -/
def spanDigits (cs : List Char) : List Char × List Char :=
  (cs.takeWhile Char.isDigit, cs.dropWhile Char.isDigit)

/-- Parse the `±HH`, `±HHMM`, `±HH:MM`, `Z` tail of `%#z`, requiring the
input to end there; returns the offset in seconds.  chrono rejects offsets
of 24 hours or more (`FixedOffset` bounds). -/
def parseOffset (cs : List Char) : Option Int :=
  match cs with
  | ['Z'] => some 0
  | ['z'] => some 0
  | sign :: rest =>
    if sign == '+' || sign == '-' then
      match rest with
      | [h1, h2] => do
        let h ← digitsVal [h1, h2]
        let secs : Int := (h * 3600 : Nat)
        if secs < 86400 then some (if sign == '-' then -secs else secs) else none
      | [h1, h2, m1, m2] => do
        let h ← digitsVal [h1, h2]
        let m ← digitsVal [m1, m2]
        let secs : Int := (h * 3600 + m * 60 : Nat)
        if secs < 86400 then some (if sign == '-' then -secs else secs) else none
      | [h1, h2, ':', m1, m2] => do
        let h ← digitsVal [h1, h2]
        let m ← digitsVal [m1, m2]
        let secs : Int := (h * 3600 + m * 60 : Nat)
        if secs < 86400 then some (if sign == '-' then -secs else secs) else none
      | _ => none
    else none
  | [] => none

/-- `DateTime::parse_from_str(s, "%Y-%m-%d %H:%M:%S %#z")` as UTC seconds. -/
def parseDateTime (s : String) : Option Int := do
  let cs := s.data
  let (ycs, cs) := spanDigits cs
  let y ← digitsVal ycs
  let cs ← expectChar '-' cs
  let (mocs, cs) := spanDigits cs
  let mo ← digitsVal mocs
  let cs ← expectChar '-' cs
  let (dcs, cs) := spanDigits cs
  let d ← digitsVal dcs
  let cs ← expectChar ' ' cs
  let (hcs, cs) := spanDigits cs
  let h ← digitsVal hcs
  let cs ← expectChar ':' cs
  let (mics, cs) := spanDigits cs
  let mi ← digitsVal mics
  let cs ← expectChar ':' cs
  let (scs, cs) := spanDigits cs
  let sec ← digitsVal scs
  let cs ← expectChar ' ' cs
  let offset ← parseOffset cs
  if 1 ≤ mo && mo ≤ 12 && 1 ≤ d && d ≤ daysInMonth y mo &&
      h ≤ 23 && mi ≤ 59 && sec ≤ 59 then
    some (epochSeconds y mo d h mi sec offset)
  else
    none

/-! ### Contest creation from free text (src/telegram/contests.rs:177-219) -/

/-- `contests::Error`: a chrono parse failure or a string reason. -/
inductive ContestError
  | parseError
  | genericError (msg : String)
deriving DecidableEq, Repr

/-- The `add_seconds` closure (src/telegram/contests.rs:190): when the row
has exactly 3 whitespace-separated elements, append `:00` to the middle one
and re-join with single spaces; otherwise return the row unchanged. -/
def add_seconds (row : List Char) : List Char :=
  match (splitOnPred Char.isWhitespace row).filter (fun t => !t.isEmpty) with
  | [a, b, c] => a ++ ' ' :: (b ++ [':', '0', '0']) ++ ' ' :: c
  | _ => row

/-- `contests::from_text` (src/telegram/contests.rs:177): split on `\n`,
drop the leading empty rows (`skip_while(|r| r.is_empty())`), require
exactly 3 remaining rows, parse the second as the end date, reject an end
date strictly before `now` (`Utc::now()` is passed explicitly), and build
the draft contest with `id = -1`, `stopped = false`, `started_at = None`. -/
def from_text (text : String) (chan : Int) (now : Int) : Except ContestError Contest :=
  let rows := (splitOnPred (fun c => c == '\n') text.data).dropWhile List.isEmpty
  match rows with
  | [name, daterow, prize] =>
    match parseDateTime (String.mk (add_seconds daterow)) with
    | none => .error .parseError
    | some e =>
      if e < now then .error (.genericError "End date can't be in the past")
      else .ok (Contest.mk (-1) (String.mk name) (String.mk prize) e none false chan)
  | _ =>
    .error (.genericError
      ("failed because row.len() != 3. Got: " ++ toString rows.length))

/-- Success condition of `from_text`, stated from the code for comparison
with the claim: after dropping leading empty rows there are exactly 3 rows,
the second parses as `YYYY-MM-DD hh:mm ±HHMM` (seconds inserted as `:00`),
and the parsed end is not before `now`. -/
def fromTextOkSpec (text : String) (now : Int) : Bool :=
  match (splitOnPred (fun c => c == '\n') text.data).dropWhile List.isEmpty with
  | [_, daterow, _] =>
    match parseDateTime (String.mk (add_seconds daterow)) with
    | some e => decide (now ≤ e)
    | none => false
  | _ => false

/-! ### Referral token codec

The referral link payload is built with
`BASE64URL.encode(format!("chan={}&contest={}&source={}", ..).as_bytes())`
(src/telegram/commands.rs:392, src/telegram/handlers.rs:898) and read back
with `BASE64URL.decode(..)` followed by
`url::form_urlencoded::parse(..)` into a map
(src/telegram/commands.rs:261-262).  `data_encoding::BASE64URL` is the
URL-safe alphabet `A-Z a-z 0-9 - _` with mandatory `=` padding and
canonical-form checking; bytes are modelled as `Nat` (< 256). -/

/-- The base64url alphabet: value `n < 64` to its character. -/
def b64char (n : Nat) : Char :=
  if n < 26 then Char.ofNat (65 + n)
  else if n < 52 then Char.ofNat (97 + (n - 26))
  else if n < 62 then Char.ofNat (48 + (n - 52))
  else if n = 62 then '-'
  else '_'

/-- Inverse of the base64url alphabet. -/
def b64val (c : Char) : Option Nat :=
  if 65 ≤ c.toNat ∧ c.toNat ≤ 90 then some (c.toNat - 65)
  else if 97 ≤ c.toNat ∧ c.toNat ≤ 122 then some (c.toNat - 97 + 26)
  else if 48 ≤ c.toNat ∧ c.toNat ≤ 57 then some (c.toNat - 48 + 52)
  else if c = '-' then some 62
  else if c = '_' then some 63
  else none

/-- `BASE64URL.encode`: bytes to characters, three bytes per four sextets,
padded with `=`. -/
def encodeB64 : List Nat → List Char
  | [] => []
  | [a] => [b64char (a / 4), b64char (a % 4 * 16), '=', '=']
  | [a, b] => [b64char (a / 4), b64char (a % 4 * 16 + b / 16), b64char (b % 16 * 4), '=']
  | a :: b :: c :: rest =>
    b64char (a / 4) :: b64char (a % 4 * 16 + b / 16) ::
      b64char (b % 16 * 4 + c / 64) :: b64char (c % 64) :: encodeB64 rest

/-- Decode one full group of four sextet characters into three bytes. -/
def decB64Quad (w x y z : Char) : Option (List Nat) := do
  let a ← b64val w
  let b ← b64val x
  let c ← b64val y
  let d ← b64val z
  pure [a * 4 + b / 16, b % 16 * 16 + c / 4, c % 4 * 64 + d]

/-- `BASE64URL.decode`: requires a multiple of four characters, `=` padding
only in the final group, and canonical (zero) trailing bits, as
`data_encoding` checks by default. -/
def decodeB64 : List Char → Option (List Nat)
  | [] => some []
  | w :: x :: y :: z :: rest =>
    if rest.isEmpty then
      if y == '=' && z == '=' then do
        let a ← b64val w
        let b ← b64val x
        if b % 16 == 0 then pure [a * 4 + b / 16] else none
      else if z == '=' then do
        let a ← b64val w
        let b ← b64val x
        let c ← b64val y
        if c % 4 == 0 then pure [a * 4 + b / 16, b % 16 * 16 + c / 4] else none
      else decB64Quad w x y z
    else do
      let chunk ← decB64Quad w x y z
      let restBytes ← decodeB64 rest
      pure (chunk ++ restBytes)
  | _ => none

/-- A string as its byte list.  The strings involved in the token protocol
are ASCII, where UTF-8 is the identity on code points. -/
def strToBytes (s : String) : List Nat :=
  s.data.map Char.toNat

/-- Bytes back to a string (ASCII range). -/
def bytesToStr (l : List Nat) : String :=
  String.mk (l.map Char.ofNat)

/-- The referral parameter map: keys among `source`, `chan`, `contest`
(src/telegram/commands.rs:265-279), values kept as the decoded strings. -/
structure QMap where
  source : Option String
  chan : Option String
  contest : Option String
deriving DecidableEq, Repr

/-- One `key=value` fragment of the query string. -/
def fieldBytes (k v : String) : List Nat :=
  strToBytes k ++ 61 :: strToBytes v

/-- The present fields of a map, in the order the code writes them
(`chan={}&contest={}` then `&source={}`). -/
def qmapFields (m : QMap) : List (String × String) :=
  (match m.chan with | some v => [("chan", v)] | none => []) ++
  (match m.contest with | some v => [("contest", v)] | none => []) ++
  (match m.source with | some v => [("source", v)] | none => [])

/-- Join query fragments with `&` (byte 38) separators. -/
def joinAmp : List (List Nat) → List Nat
  | [] => []
  | [p] => p
  | p :: rest => p ++ 38 :: joinAmp rest

/-- The query string `format!` produces, as bytes (`&` = 38, `=` = 61). -/
def queryBytes (m : QMap) : List Nat :=
  joinAmp ((qmapFields m).map (fun kv => fieldBytes kv.1 kv.2))

/-- `Encode`: query string, then base64url. -/
def encodeToken (m : QMap) : List Char :=
  encodeB64 (queryBytes m)

/-- Hexadecimal digit value of a byte, for percent decoding. -/
def hexVal (b : Nat) : Option Nat :=
  if 48 ≤ b ∧ b ≤ 57 then some (b - 48)
  else if 65 ≤ b ∧ b ≤ 70 then some (b - 65 + 10)
  else if 97 ≤ b ∧ b ≤ 102 then some (b - 97 + 10)
  else none

/-- `form_urlencoded`'s value decoding: `+` (43) to space (32), valid
`%HH` (37) sequences to their byte, everything else kept. -/
def percentPlusDecode : List Nat → List Nat
  | [] => []
  | b :: h1 :: h2 :: rest2 =>
    if b == 43 then 32 :: percentPlusDecode (h1 :: h2 :: rest2)
    else if b == 37 then
      match hexVal h1, hexVal h2 with
      | some x, some y => (x * 16 + y) :: percentPlusDecode rest2
      | _, _ => 37 :: percentPlusDecode (h1 :: h2 :: rest2)
    else b :: percentPlusDecode (h1 :: h2 :: rest2)
  | b :: rest =>
    if b == 43 then 32 :: percentPlusDecode rest
    else if b == 37 then 37 :: percentPlusDecode rest
    else b :: percentPlusDecode rest

/-- One piece of the query string split at its first `=`:
`(name, value)`, with `value` empty when no `=` occurs, both
percent-plus-decoded (`url::form_urlencoded::parse`). -/
def parsePair (piece : List Nat) : List Nat × List Nat :=
  (percentPlusDecode (piece.takeWhile (fun b => !(b == 61))),
   percentPlusDecode ((piece.dropWhile (fun b => !(b == 61))).drop 1))

/-- `url::form_urlencoded::parse`: split on `&`, skip empty pieces, split
each piece at the first `=`. -/
def parseQueryPairs (bytes : List Nat) : List (List Nat × List Nat) :=
  ((splitOnPred (fun b => b == 38) bytes).filter (fun p => !p.isEmpty)).map parsePair

/-- Collecting the parsed pairs into the map the `start` command reads
(`params.contains_key("source") / params["source"]` etc.), restricted to
the three keys the protocol uses; a later pair for the same key overwrites
an earlier one, as in `HashMap::collect`. -/
def applyPair (m : QMap) (kv : List Nat × List Nat) : QMap :=
  if kv.1 == strToBytes "source" then { m with source := some (bytesToStr kv.2) }
  else if kv.1 == strToBytes "chan" then { m with chan := some (bytesToStr kv.2) }
  else if kv.1 == strToBytes "contest" then { m with contest := some (bytesToStr kv.2) }
  else m

/-- `Decode`: base64url decode, then query-string parse into the map. -/
def decodeToken (t : List Char) : Option QMap :=
  (decodeB64 t).map (fun bytes => (parseQueryPairs bytes).foldl applyPair (QMap.mk none none none))

/-- A decimal integer literal: optional leading minus, at least one digit. -/
def isDecimalInt (s : String) : Bool :=
  match s.data with
  | [] => false
  | c :: ds =>
    if c == '-' then !ds.isEmpty && ds.all Char.isDigit
    else (c :: ds).all Char.isDigit

/-- Every present value of the map is a decimal integer (the claim's
precondition). -/
def validQMap (m : QMap) : Bool :=
  (match m.source with | some v => isDecimalInt v | none => true) &&
  (match m.chan with | some v => isDecimalInt v | none => true) &&
  (match m.contest with | some v => isDecimalInt v | none => true)

/-- Bytes that pass through the query-string layer untouched: in the ASCII
byte range and none of `&` (38), `=` (61), `%` (37), `+` (43). -/
def cleanBytes (l : List Nat) : Prop :=
  ∀ b ∈ l, b < 256 ∧ b ≠ 38 ∧ b ≠ 61 ∧ b ≠ 37 ∧ b ≠ 43

/-! ## Codec lemmas -/

/-- The base64url alphabet maps are mutually inverse on sextets. -/
theorem b64val_b64char : ∀ n : Nat, n < 64 → b64val (b64char n) = some n := by decide

/-- No sextet encodes to the padding character. -/
theorem b64char_ne_pad : ∀ n : Nat, n < 64 → (b64char n == '=') = false := by decide

/-- `encodeB64` returns the empty token only on empty input. -/
theorem encodeB64_eq_nil : ∀ {s : List Nat}, encodeB64 s = [] → s = []
  | [], _ => rfl
  | [_], h => by simp [encodeB64] at h
  | [_, _], h => by simp [encodeB64] at h
  | _ :: _ :: _ :: _, h => by simp [encodeB64] at h

/-- Base64url round trip on byte lists. -/
theorem decodeB64_encodeB64 :
    ∀ (s : List Nat), (∀ b ∈ s, b < 256) → decodeB64 (encodeB64 s) = some s
  | [], _ => rfl
  | [a], h => by
    have ha : a < 256 := h a (by simp)
    have h0 : a / 4 < 64 := by omega
    have h1 : a % 4 * 16 < 64 := by omega
    have hm : a % 4 * 16 % 16 = 0 := by omega
    simp [encodeB64, decodeB64, b64val_b64char _ h0, b64val_b64char _ h1, hm]
    omega
  | [a, b], h => by
    have ha : a < 256 := h a (by simp)
    have hb : b < 256 := h b (by simp)
    have h0 : a / 4 < 64 := by omega
    have h1 : a % 4 * 16 + b / 16 < 64 := by omega
    have h2 : b % 16 * 4 < 64 := by omega
    have hm : b % 16 * 4 % 4 = 0 := by omega
    simp [encodeB64, decodeB64, b64val_b64char _ h0, b64val_b64char _ h1,
      b64val_b64char _ h2, b64char_ne_pad _ h2, hm]
    constructor <;> omega
  | a :: b :: c :: rest, h => by
    have ha : a < 256 := h a (by simp)
    have hb : b < 256 := h b (by simp)
    have hc : c < 256 := h c (by simp)
    have ih := decodeB64_encodeB64 rest (fun x hx => h x (by simp [hx]))
    have h0 : a / 4 < 64 := by omega
    have h1 : a % 4 * 16 + b / 16 < 64 := by omega
    have h2 : b % 16 * 4 + c / 64 < 64 := by omega
    have h3 : c % 64 < 64 := by omega
    cases hrest : encodeB64 rest with
    | nil =>
      have hnil : rest = [] := encodeB64_eq_nil hrest
      subst hnil
      simp [encodeB64, decodeB64, decB64Quad, b64char_ne_pad _ h2, b64char_ne_pad _ h3,
        b64val_b64char _ h0, b64val_b64char _ h1, b64val_b64char _ h2, b64val_b64char _ h3]
      refine ⟨?_, ?_, ?_⟩ <;> omega
    | cons w ws =>
      rw [show encodeB64 (a :: b :: c :: rest) =
        b64char (a / 4) :: b64char (a % 4 * 16 + b / 16) ::
          b64char (b % 16 * 4 + c / 64) :: b64char (c % 64) :: encodeB64 rest from rfl]
      rw [hrest] at ih ⊢
      simp [decodeB64, decB64Quad, b64val_b64char _ h0, b64val_b64char _ h1,
        b64val_b64char _ h2, b64val_b64char _ h3, ih]
      refine ⟨?_, ?_, ?_⟩ <;> omega

/-- `percentPlusDecode` fixes byte lists free of `%` and `+`. -/
theorem percentPlusDecode_id :
    ∀ (l : List Nat), (∀ b ∈ l, b ≠ 37 ∧ b ≠ 43) → percentPlusDecode l = l
  | [], _ => rfl
  | [b], h => by
    have hb := h b (by simp)
    simp [percentPlusDecode, hb.1, hb.2]
  | [b, b2], h => by
    have hb := h b (by simp)
    have hb2 := h b2 (by simp)
    simp [percentPlusDecode, hb.1, hb.2, hb2.1, hb2.2]
  | b :: h1 :: h2 :: rest2, h => by
    have hb := h b (by simp)
    have ih := percentPlusDecode_id (h1 :: h2 :: rest2) (fun x hx => h x (by simp at hx ⊢; tauto))
    simp [percentPlusDecode, hb.1, hb.2] at ih ⊢
    exact ih

/-- `takeWhile` stops exactly at the inserted `=` separator. -/
theorem takeWhile_field (v : List Nat) :
    ∀ (k : List Nat), (∀ b ∈ k, b ≠ 61) →
      (k ++ 61 :: v).takeWhile (fun b => !(b == 61)) = k
  | [], _ => by simp
  | b :: k, h => by
    have hb : b ≠ 61 := h b (by simp)
    have ih := takeWhile_field v k (fun x hx => h x (by simp [hx]))
    simp [List.takeWhile_cons, hb, ih]

/-- `dropWhile` reaches exactly the inserted `=` separator. -/
theorem dropWhile_field (v : List Nat) :
    ∀ (k : List Nat), (∀ b ∈ k, b ≠ 61) →
      (k ++ 61 :: v).dropWhile (fun b => !(b == 61)) = 61 :: v
  | [], _ => by simp
  | b :: k, h => by
    have hb : b ≠ 61 := h b (by simp)
    have ih := dropWhile_field v k (fun x hx => h x (by simp [hx]))
    simp [List.dropWhile_cons, hb, ih]

/-- Splitting one `name=value` piece recovers name and value. -/
theorem parsePair_field (k v : List Nat) (hk : cleanBytes k) (hv : cleanBytes v) :
    parsePair (k ++ 61 :: v) = (k, v) := by
  unfold parsePair
  rw [takeWhile_field v k (fun b hb => (hk b hb).2.2.1),
    dropWhile_field v k (fun b hb => (hk b hb).2.2.1)]
  simp [percentPlusDecode_id k (fun b hb => ⟨(hk b hb).2.2.2.1, (hk b hb).2.2.2.2⟩),
    percentPlusDecode_id v (fun b hb => ⟨(hv b hb).2.2.2.1, (hv b hb).2.2.2.2⟩)]

/-- A separator-free list splits into itself. -/
theorem splitOnPred_no_sep {α : Type} (p : α → Bool) :
    ∀ (l : List α), (∀ a ∈ l, p a = false) → splitOnPred p l = [l]
  | [], _ => rfl
  | c :: rest, h => by
    have hc : p c = false := h c (by simp)
    have ih := splitOnPred_no_sep p rest (fun x hx => h x (by simp [hx]))
    simp [splitOnPred, hc, ih]

/-- Splitting after a separator-free block peels that block off. -/
theorem splitOnPred_sep_append {α : Type} (p : α → Bool) (c : α) (hc : p c = true)
    (ys : List α) :
    ∀ (xs : List α), (∀ a ∈ xs, p a = false) →
      splitOnPred p (xs ++ c :: ys) = xs :: splitOnPred p ys
  | [], _ => by simp [splitOnPred, hc]
  | b :: xs, h => by
    have hb : p b = false := h b (by simp)
    have ih := splitOnPred_sep_append p c hc ys xs (fun x hx => h x (by simp [hx]))
    simp [splitOnPred, hb, ih]

/-- Parsing a query string built from clean `name=value` pairs recovers
exactly those pairs. -/
theorem parseQueryPairs_joinAmp :
    ∀ (kvs : List (List Nat × List Nat)),
      (∀ kv ∈ kvs, cleanBytes kv.1 ∧ cleanBytes kv.2) →
      parseQueryPairs (joinAmp (kvs.map (fun kv => kv.1 ++ 61 :: kv.2))) = kvs
  | [], _ => rfl
  | [kv], h => by
    have hkv := h kv (by simp)
    have hno : ∀ b ∈ kv.1 ++ 61 :: kv.2, (b == 38) = false := by
      intro b hb
      simp at hb
      rcases hb with hb | hb | hb
      · simp [(hkv.1 b hb).2.1]
      · simp [hb]
      · simp [(hkv.2 b hb).2.1]
    unfold parseQueryPairs
    simp only [List.map_cons, List.map_nil]
    rw [show joinAmp [kv.1 ++ 61 :: kv.2] = kv.1 ++ 61 :: kv.2 from rfl,
      splitOnPred_no_sep _ _ hno]
    simp [parsePair_field kv.1 kv.2 hkv.1 hkv.2]
  | kv :: kv2 :: rest, h => by
    have hkv := h kv (by simp)
    have hno : ∀ b ∈ kv.1 ++ 61 :: kv.2, ((fun b => b == 38) b) = false := by
      intro b hb
      simp at hb
      rcases hb with hb | hb | hb
      · simp [(hkv.1 b hb).2.1]
      · simp [hb]
      · simp [(hkv.2 b hb).2.1]
    have ih := parseQueryPairs_joinAmp (kv2 :: rest) (fun x hx => h x (by simp [hx]))
    unfold parseQueryPairs at ih ⊢
    rw [show joinAmp ((kv :: kv2 :: rest).map (fun kv => kv.1 ++ 61 :: kv.2)) =
      (kv.1 ++ 61 :: kv.2) ++ 38 ::
        joinAmp ((kv2 :: rest).map (fun kv => kv.1 ++ 61 :: kv.2)) from rfl]
    rw [splitOnPred_sep_append _ 38 (by simp) _ _ hno]
    rw [List.map_cons] at ih
    simp only [List.filter_cons, List.map_cons]
    simp [parsePair_field kv.1 kv.2 hkv.1 hkv.2, ih]

/-- Decimal integer strings produce clean query bytes. -/
theorem decimal_bytes_clean (v : String) (h : isDecimalInt v = true) :
    cleanBytes (strToBytes v) := by
  intro b hb
  simp [strToBytes] at hb
  obtain ⟨ch, hmem, hch⟩ := hb
  have hdig : ∀ c : Char, c.isDigit = true → 48 ≤ c.toNat ∧ c.toNat ≤ 57 := by
    intro c hcd
    simp [Char.isDigit] at hcd
    obtain ⟨hl, hr⟩ := hcd
    exact ⟨hl, hr⟩
  have hch2 : ch = '-' ∨ ch.isDigit = true := by
    unfold isDecimalInt at h
    cases hd : v.data with
    | nil => rw [hd] at h; simp at h
    | cons c ds =>
      rw [hd] at h hmem
      by_cases hcm : (c == '-') = true
      · simp only [hcm, if_true] at h
        simp at h hcm hmem
        rcases hmem with hmem | hmem
        · left; rw [hmem, hcm]
        · right; exact h.2 ch hmem
      · simp only [hcm, if_false] at h
        simp at h hmem
        rcases hmem with hmem | hmem
        · right; rw [hmem]; exact h.1
        · right; exact h.2 ch hmem
  rcases hch2 with hm | hm
  · subst hm; subst hch; decide
  · have := hdig ch hm
    subst hch
    omega

/-- Bytes of a clean query string are in range for the base64 layer. -/
theorem joinAmp_lt256 :
    ∀ (pieces : List (List Nat)), (∀ p ∈ pieces, ∀ b ∈ p, b < 256) →
      ∀ b ∈ joinAmp pieces, b < 256
  | [], _ => by simp [joinAmp]
  | [p], h => by simpa [joinAmp] using h p (by simp)
  | p :: p2 :: rest, h => by
    intro b hb
    rw [show joinAmp (p :: p2 :: rest) = p ++ 38 :: joinAmp (p2 :: rest) from rfl] at hb
    simp at hb
    rcases hb with hb | hb | hb
    · exact h p (by simp) b hb
    · omega
    · exact joinAmp_lt256 (p2 :: rest) (fun q hq => h q (List.mem_cons_of_mem _ hq)) b hb

/-- Folding in a `chan` pair. -/
theorem applyPair_chan (m : QMap) (v : List Nat) :
    applyPair m (strToBytes "chan", v) = { m with chan := some (bytesToStr v) } := rfl

/-- Folding in a `contest` pair. -/
theorem applyPair_contest (m : QMap) (v : List Nat) :
    applyPair m (strToBytes "contest", v) = { m with contest := some (bytesToStr v) } := rfl

/-- Folding in a `source` pair. -/
theorem applyPair_source (m : QMap) (v : List Nat) :
    applyPair m (strToBytes "source", v) = { m with source := some (bytesToStr v) } := rfl

/-- ASCII-safe byte conversion round trip. -/
theorem bytesToStr_strToBytes (s : String) : bytesToStr (strToBytes s) = s := by
  rcases s with ⟨d⟩
  simp only [bytesToStr, strToBytes, List.map_map]
  congr 1
  induction d with
  | nil => rfl
  | cons c t ih => simp [Function.comp, Char.ofNat_toNat, ih]

/-- The literal key `chan` is clean. -/
theorem clean_chan : cleanBytes (strToBytes "chan") := by
  unfold cleanBytes strToBytes
  decide

/-- The literal key `contest` is clean. -/
theorem clean_contest : cleanBytes (strToBytes "contest") := by
  unfold cleanBytes strToBytes
  decide

/-- The literal key `source` is clean. -/
theorem clean_source : cleanBytes (strToBytes "source") := by
  unfold cleanBytes strToBytes
  decide

/-- Decode-after-encode down to the pair list, for any clean field list. -/
theorem decode_encode_fields (kvs : List (List Nat × List Nat))
    (h : ∀ kv ∈ kvs, cleanBytes kv.1 ∧ cleanBytes kv.2) :
    (decodeB64 (encodeB64 (joinAmp (kvs.map (fun kv => kv.1 ++ 61 :: kv.2))))).map
        (fun bytes => (parseQueryPairs bytes).foldl applyPair (QMap.mk none none none)) =
      some (kvs.foldl applyPair (QMap.mk none none none)) := by
  have hbytes : ∀ b ∈ joinAmp (kvs.map (fun kv => kv.1 ++ 61 :: kv.2)), b < 256 := by
    apply joinAmp_lt256
    intro p hp b hb
    simp at hp
    obtain ⟨k1, k2, hmemk, hpe⟩ := hp
    subst hpe
    have hckv := h (k1, k2) hmemk
    simp at hb
    rcases hb with hb | hb | hb
    · exact (hckv.1 b hb).1
    · omega
    · exact (hckv.2 b hb).1
  rw [decodeB64_encodeB64 _ hbytes]
  simp only [Option.map]
  rw [parseQueryPairs_joinAmp kvs h]

/-! ## Claim theorems -/

/-- Claim C2: round-trip law of the referral token codec.  For every map
over the keys `source`, `chan`, `contest` whose present values are decimal
integers, base64url-decoding the encoded token and parsing the query string
recovers exactly the map. -/
theorem c2_token_roundtrip (m : QMap) (h : validQMap m = true) :
    decodeToken (encodeToken m) = some m := by
  obtain ⟨os, oc, ot⟩ := m
  simp only [validQMap] at h
  unfold decodeToken encodeToken
  cases os with
  | none =>
    cases oc with
    | none =>
      cases ot with
      | none => decide
      | some vt =>
        simp at h
        have hclean : ∀ kv ∈ [(strToBytes "contest", strToBytes vt)],
            cleanBytes kv.1 ∧ cleanBytes kv.2 := by
          intro kv hkv
          simp at hkv
          subst hkv
          exact ⟨clean_contest, decimal_bytes_clean _ h⟩
        rw [show queryBytes (QMap.mk none none (some vt)) =
          joinAmp ([(strToBytes "contest", strToBytes vt)].map
            (fun kv => kv.1 ++ 61 :: kv.2)) from rfl]
        rw [decode_encode_fields _ hclean]
        simp [List.foldl, applyPair_contest, bytesToStr_strToBytes]
    | some vc =>
      cases ot with
      | none =>
        simp at h
        have hclean : ∀ kv ∈ [(strToBytes "chan", strToBytes vc)],
            cleanBytes kv.1 ∧ cleanBytes kv.2 := by
          intro kv hkv
          simp at hkv
          subst hkv
          exact ⟨clean_chan, decimal_bytes_clean _ h⟩
        rw [show queryBytes (QMap.mk none (some vc) none) =
          joinAmp ([(strToBytes "chan", strToBytes vc)].map
            (fun kv => kv.1 ++ 61 :: kv.2)) from rfl]
        rw [decode_encode_fields _ hclean]
        simp [List.foldl, applyPair_chan, bytesToStr_strToBytes]
      | some vt =>
        simp at h
        have hclean : ∀ kv ∈ [(strToBytes "chan", strToBytes vc),
            (strToBytes "contest", strToBytes vt)],
            cleanBytes kv.1 ∧ cleanBytes kv.2 := by
          intro kv hkv
          simp at hkv
          rcases hkv with hkv | hkv <;> subst hkv
          · exact ⟨clean_chan, decimal_bytes_clean _ h.1⟩
          · exact ⟨clean_contest, decimal_bytes_clean _ h.2⟩
        rw [show queryBytes (QMap.mk none (some vc) (some vt)) =
          joinAmp ([(strToBytes "chan", strToBytes vc),
            (strToBytes "contest", strToBytes vt)].map
            (fun kv => kv.1 ++ 61 :: kv.2)) from rfl]
        rw [decode_encode_fields _ hclean]
        simp [List.foldl, applyPair_chan, applyPair_contest, bytesToStr_strToBytes]
  | some vs =>
    cases oc with
    | none =>
      cases ot with
      | none =>
        simp at h
        have hclean : ∀ kv ∈ [(strToBytes "source", strToBytes vs)],
            cleanBytes kv.1 ∧ cleanBytes kv.2 := by
          intro kv hkv
          simp at hkv
          subst hkv
          exact ⟨clean_source, decimal_bytes_clean _ h⟩
        rw [show queryBytes (QMap.mk (some vs) none none) =
          joinAmp ([(strToBytes "source", strToBytes vs)].map
            (fun kv => kv.1 ++ 61 :: kv.2)) from rfl]
        rw [decode_encode_fields _ hclean]
        simp [List.foldl, applyPair_source, bytesToStr_strToBytes]
      | some vt =>
        simp at h
        have hclean : ∀ kv ∈ [(strToBytes "contest", strToBytes vt),
            (strToBytes "source", strToBytes vs)],
            cleanBytes kv.1 ∧ cleanBytes kv.2 := by
          intro kv hkv
          simp at hkv
          rcases hkv with hkv | hkv <;> subst hkv
          · exact ⟨clean_contest, decimal_bytes_clean _ h.2⟩
          · exact ⟨clean_source, decimal_bytes_clean _ h.1⟩
        rw [show queryBytes (QMap.mk (some vs) none (some vt)) =
          joinAmp ([(strToBytes "contest", strToBytes vt),
            (strToBytes "source", strToBytes vs)].map
            (fun kv => kv.1 ++ 61 :: kv.2)) from rfl]
        rw [decode_encode_fields _ hclean]
        simp [List.foldl, applyPair_contest, applyPair_source, bytesToStr_strToBytes]
    | some vc =>
      cases ot with
      | none =>
        simp at h
        have hclean : ∀ kv ∈ [(strToBytes "chan", strToBytes vc),
            (strToBytes "source", strToBytes vs)],
            cleanBytes kv.1 ∧ cleanBytes kv.2 := by
          intro kv hkv
          simp at hkv
          rcases hkv with hkv | hkv <;> subst hkv
          · exact ⟨clean_chan, decimal_bytes_clean _ h.2⟩
          · exact ⟨clean_source, decimal_bytes_clean _ h.1⟩
        rw [show queryBytes (QMap.mk (some vs) (some vc) none) =
          joinAmp ([(strToBytes "chan", strToBytes vc),
            (strToBytes "source", strToBytes vs)].map
            (fun kv => kv.1 ++ 61 :: kv.2)) from rfl]
        rw [decode_encode_fields _ hclean]
        simp [List.foldl, applyPair_chan, applyPair_source, bytesToStr_strToBytes]
      | some vt =>
        simp at h
        have hclean : ∀ kv ∈ [(strToBytes "chan", strToBytes vc),
            (strToBytes "contest", strToBytes vt),
            (strToBytes "source", strToBytes vs)],
            cleanBytes kv.1 ∧ cleanBytes kv.2 := by
          intro kv hkv
          simp at hkv
          rcases hkv with hkv | hkv | hkv <;> subst hkv
          · exact ⟨clean_chan, decimal_bytes_clean _ h.1.2⟩
          · exact ⟨clean_contest, decimal_bytes_clean _ h.2⟩
          · exact ⟨clean_source, decimal_bytes_clean _ h.1.1⟩
        rw [show queryBytes (QMap.mk (some vs) (some vc) (some vt)) =
          joinAmp ([(strToBytes "chan", strToBytes vc),
            (strToBytes "contest", strToBytes vt),
            (strToBytes "source", strToBytes vs)].map
            (fun kv => kv.1 ++ 61 :: kv.2)) from rfl]
        rw [decode_encode_fields _ hclean]
        simp [List.foldl, applyPair_chan, applyPair_contest, applyPair_source,
          bytesToStr_strToBytes]

/-- Witness for C2 at a concrete map with a negative channel id and no
contest key. -/
theorem c2_token_roundtrip_witness :
    validQMap (QMap.mk (some "42") (some "-7") none) = true ∧
      decodeToken (encodeToken (QMap.mk (some "42") (some "-7") none)) =
        some (QMap.mk (some "42") (some "-7") none) :=
  ⟨by decide, c2_token_roundtrip (QMap.mk (some "42") (some "-7") none) (by decide)⟩

/-- Claim C1 (code bug): the ranking query is documented ("already ordered
by number of invites accepted in descending order", the channel
announcement promises "the user that referred more friends will win") and
claimed to order by invitation count descending, but its window clause is
`ORDER BY t.c, t.source DESC` — count ASCENDING.  Failing input: contest 7
with invitations source 1 → dests 10, 11 and source 2 → dest 12.  Source 1
has 2 invitations and source 2 has 1, yet ROW_NUMBER 1 (the announced
winner, `rank[0]`) is source 2 with the SMALLER count, and source 1 with
the larger count is ranked 2. -/
theorem c1_ranking_orders_by_count_ascending :
    rankingRows [Invitation.mk 1 10 1 7, Invitation.mk 1 11 1 7, Invitation.mk 2 12 1 7] 7 =
      [(1, 1, 2), (2, 2, 1)] := by
  decide

/-- Claim C3 (code bug): `validate_users` is documented as verifying "that
the joined users are still in the channel", and the claim says the pruning
pass deletes exactly the invitations whose dest is no longer a member.  But
the code keeps an invitation whenever `get_chat_member` returns `Ok`
(`in_channel = member.is_ok()`), even when the returned `ChatMember` is
`Left` or `Kicked` — the very states the accept branch's own
`member_joined` classifies as "not joined".  Failing input: one invitation
whose dest's lookup returns `Ok(Left)`: the invitation is retained although
the user has left; deletion happens only when the lookup errors. -/
theorem c3_validate_users_keeps_left_members :
    validate_users (fun _ => .ok .left) [Invitation.mk 1 5 1 1] 1 =
        [Invitation.mk 1 5 1 1] ∧
      memberJoined .left = false ∧
      validate_users (fun _ => .error "user not found") [Invitation.mk 1 5 1 1] 1 = [] := by
  decide

/-- Claim C4, counterexample: the accept branch checks only that the
contest exists and `now ≤ contest.end` before inserting; it never reads
`started_at` or `stopped`.  With a draft contest (`started_at = None`,
never started), a confirmed join after the suspension still inserts the
invitation, contradicting the claim that nothing is inserted unless the
contest is started and not stopped. -/
theorem c4_accept_inserts_into_draft_contest :
    (acceptFlow (.ok .left) (.ok .member) 50
        (Db.mk [User.mk 10 "s" none none, User.mk 20 "d" none none]
          [Channel.mk 1 10 "l" "n"]
          [Contest.mk 7 "c" "p" 100 none false 1] [])
        10 20 1 7).1 = .inserted ∧
      (getContest
        (Db.mk [User.mk 10 "s" none none, User.mk 20 "d" none none]
          [Channel.mk 1 10 "l" "n"]
          [Contest.mk 7 "c" "p" 100 none false 1] []) 7).map
          (fun c => (c.started_at, c.stopped)) = some (none, false) := by
  decide

/-- Claim C4, amended: the accept flow inserts an invitation exactly when
the initial membership check returns a not-yet-joined `ChatMember`, the
re-check after the suspension returns a joined one, the contest row exists
with `now ≤ contest.end`, and the INSERT passes the store constraints
(`source ≠ dest`, uniqueness of `(source, dest, chan)`, foreign keys); the
contest's `started_at` and `stopped` are not consulted. -/
theorem c4_amended_accept_insert_conditions
    (before after : Except String ChatMember) (now : Int) (db : Db)
    (source dest chanId cid : Int) :
    (acceptFlow before after now db source dest chanId cid).1 = .inserted ↔
      acceptInsertsSpec before after now db source dest chanId cid = true := by
  cases before with
  | error e => simp [acceptFlow, acceptInsertsSpec]
  | ok m =>
    by_cases hm : memberJoined m = true
    · simp [acceptFlow, acceptInsertsSpec, hm]
    · cases after with
      | error e => simp [acceptFlow, acceptInsertsSpec, hm]
      | ok m2 =>
        by_cases hm2 : memberJoined m2 = true
        · cases hc : getContest db cid with
          | none => simp [acceptFlow, acceptInsertsSpec, hm, hm2, hc]
          | some c =>
            by_cases hend : now > c.endDate
            · have hd : ¬ now ≤ c.endDate := not_le.mpr hend
              simp [acceptFlow, acceptInsertsSpec, hm, hm2, hc, hend, hd]
            · have hd : now ≤ c.endDate := not_lt.mp hend
              cases hins : insertInvitation db (Invitation.mk source dest chanId cid) with
              | error e =>
                simp [acceptFlow, acceptInsertsSpec, hm, hm2, hc, hend, hd, hins,
                  Except.isOk, Except.toBool]
              | ok db2 =>
                simp [acceptFlow, acceptInsertsSpec, hm, hm2, hc, hend, hd, hins,
                  Except.isOk, Except.toBool]
        · simp [acceptFlow, acceptInsertsSpec, hm, hm2]

/-- Claim C6, counterexample: the claim requires `from_text` to fail
whenever the input is not exactly 3 non-empty lines.  The input
`"name\n2999-01-01 10:00 +0100\n"` has only 2 non-empty lines (the
trailing `\n` produces an empty third row, and only LEADING empty rows are
skipped by `skip_while`), yet `from_text` succeeds and returns a draft
contest whose prize is the empty string. -/
theorem c6_two_nonempty_lines_still_parses :
    (((splitOnPred (fun c => c == '\n') ("name\n2999-01-01 10:00 +0100\n").data).filter
        (fun r => !r.isEmpty)).length = 2) ∧
      (from_text "name\n2999-01-01 10:00 +0100\n" 1 0).isOk = true ∧
      (from_text "name\n2999-01-01 10:00 +0100\n" 1 0).toOption.map Contest.prize =
        some "" := by
  decide

/-- Claim C6, amended: `from_text` fails iff, after dropping only the
LEADING empty rows, the number of `\n`-separated rows differs from 3 (rows
after the first may be empty), or the second row does not parse in the
`YYYY-MM-DD hh:mm ±HHMM` format (seconds inserted as `:00`), or the parsed
end date is strictly BEFORE the parse-time `now` (an end equal to `now` is
accepted); on success the contest is a draft: `id = -1`,
`started_at = null`, `stopped = false`, bound to the given channel. -/
theorem c6_amended_from_text_contract (text : String) (chan now : Int) :
    ((from_text text chan now).isOk = fromTextOkSpec text now) ∧
      ((from_text text chan now).toOption.map
          (fun c => (c.id, c.started_at, c.stopped, c.chan))).getD
        (-1, none, false, chan) = (-1, none, false, chan) := by
  unfold from_text fromTextOkSpec
  cases hrows : (splitOnPred (fun c => c == '\n') text.data).dropWhile List.isEmpty with
  | nil => simp [Except.isOk, Except.toBool, Except.toOption]
  | cons a t1 =>
    cases t1 with
    | nil => simp [Except.isOk, Except.toBool, Except.toOption]
    | cons b t2 =>
      cases t2 with
      | nil => simp [Except.isOk, Except.toBool, Except.toOption]
      | cons c t3 =>
        cases t3 with
        | nil =>
          cases hdt : parseDateTime (String.mk (add_seconds b)) with
          | none => simp [Except.isOk, Except.toBool, Except.toOption, hdt]
          | some e =>
            by_cases he : e < now
            · have hd : ¬ now ≤ e := not_le.mpr he
              simp [Except.isOk, Except.toBool, Except.toOption, hdt, he, hd]
            · have hd : now ≤ e := not_lt.mp he
              simp [Except.isOk, Except.toBool, Except.toOption, hdt, he, hd]
        | cons d t4 => simp [Except.isOk, Except.toBool, Except.toOption]

/-- Claim C5, counterexample: the claim says a platform error on the
re-check after the 10-second suspension is treated as "not a member" and
the handler never crashes.  In the code the re-check result is consumed by
`member_joined(member.unwrap())` (src/telegram/handlers.rs:274), so an
error there panics: with initial check `Ok(Left)` and re-check `Err`, the
outcome is a panic, not a "not a member" message. -/
theorem c5_recheck_error_panics :
    acceptFlow (.ok .left) (.error "bad gateway") 0
        (Db.mk [] [] [] []) 1 2 3 4 =
      (.panicked, Db.mk [] [] [] []) := by
  decide

/-- Claim C5, amended: an error on the initial membership check is handled
(error text sent, no insertion, no crash), but an error on the re-check
after the suspension panics (for both not-yet-joined initial states). -/
theorem c5_amended_initial_error_handled_recheck_error_panics :
    (∀ (e : String) (after : Except String ChatMember) (now : Int) (db : Db)
        (source dest chanId cid : Int),
      acceptFlow (.error e) after now db source dest chanId cid = (.initialCheckError, db)) ∧
    (∀ (e : String) (now : Int) (db : Db) (source dest chanId cid : Int),
      acceptFlow (.ok .left) (.error e) now db source dest chanId cid = (.panicked, db) ∧
      acceptFlow (.ok .kicked) (.error e) now db source dest chanId cid = (.panicked, db)) := by
  constructor
  · intro e after now db source dest chanId cid
    rfl
  · intro e now db source dest chanId cid
    exact ⟨rfl, rfl⟩

/-- Claim C7 (code bug): when the winner has no public username the handler
runs `INSERT INTO being_contacted_users(user, owner) VALUES(?, ?)`, but the
schema declares `contest INTEGER NOT NULL` with no default
(src/persistence/db.rs:76), so the insert always fails with a NOT NULL
violation, the error is only logged (src/telegram/handlers.rs:622-625), and
no `PendingWinnerContact` row is ever created.  The second conjunct runs
the whole `stop_contest` finalization on a contest whose rank-1 winner
(user 10) has no username: the outcome records the insert failure and the
`being_contacted_users` table stays empty. -/
theorem c7_pending_winner_contact_insert_always_fails :
    (∀ (rows : List BeingContactedUser) (user owner : Int),
      insertBeingContactedUsers rows user owner =
        .error "NOT NULL constraint failed: being_contacted_users.contest") ∧
    (stopContest (fun _ => .ok .member)
        (Db.mk [User.mk 10 "w" none none, User.mk 20 "o" none none]
          [Channel.mk 1 20 "link" "chan"]
          [Contest.mk 7 "c" "p" 100 (some 1) false 1]
          [Invitation.mk 10 20 1 7])
        [] 7 20).1 = .winnerViaBotFailed
          "NOT NULL constraint failed: being_contacted_users.contest" ∧
    (stopContest (fun _ => .ok .member)
        (Db.mk [User.mk 10 "w" none none, User.mk 20 "o" none none]
          [Channel.mk 1 20 "link" "chan"]
          [Contest.mk 7 "c" "p" 100 (some 1) false 1]
          [Invitation.mk 10 20 1 7])
        [] 7 20).2.2 = [] := by
  refine ⟨fun rows user owner => rfl, ?_, ?_⟩ <;> decide

/-- Claim C8 (code bug): the `/rank` command's query applies
`WHERE t.source = ?` before the window function and uses no
`PARTITION BY contest`, so the returned "rank" is the row number among the
sender's own `(contest, source)` groups ordered by their counts — not the
sender's rank within each contest.  Failing input: contest 1 has user 10
with 1 invitation and user 20 with 2; contest 2 has user 10 with 4
invitations and user 30 with 3.  The command reports user 10 as rank 1 in
contest 1 and rank 2 in contest 2, while even the code's own per-contest
ranking places user 10 at rank 1 of contest 2 (and the claimed
count-descending ordering would place user 10 at rank 2 in contest 1 and
rank 1 in contest 2). -/
theorem c8_rank_command_numbers_own_contests_not_contest_rank :
    rankCommandRows
        [Invitation.mk 10 100 1 1, Invitation.mk 20 101 1 1, Invitation.mk 20 102 1 1,
         Invitation.mk 10 103 2 2, Invitation.mk 10 104 2 2, Invitation.mk 10 105 2 2,
         Invitation.mk 10 106 2 2, Invitation.mk 30 107 2 2, Invitation.mk 30 108 2 2,
         Invitation.mk 30 109 2 2] 10 = [(1, 1), (2, 2)] ∧
      rankingRows
        [Invitation.mk 10 100 1 1, Invitation.mk 20 101 1 1, Invitation.mk 20 102 1 1,
         Invitation.mk 10 103 2 2, Invitation.mk 10 104 2 2, Invitation.mk 10 105 2 2,
         Invitation.mk 10 106 2 2, Invitation.mk 30 107 2 2, Invitation.mk 30 108 2 2,
         Invitation.mk 30 109 2 2] 2 = [(1, 3, 30), (2, 4, 10)] := by
  decide

/-- Claim C9: deleting a contest that still has invitations fails on the
`invitations.contest` foreign key (enforced via `PRAGMA foreign_keys=1`),
the error string is what the handler surfaces to the acting user, and the
failed DELETE mutates nothing: the store, and in particular the contest
row, is unchanged. -/
theorem c9_delete_contest_with_invitations_fails_unchanged (db : Db) (id : Int)
    (h : ∃ inv ∈ db.invitations, inv.contest = id) :
    deleteContest db id = .error "FOREIGN KEY constraint failed" ∧
      dbAfterDeleteContest db id = db := by
  obtain ⟨inv, hmem, hc⟩ := h
  have hany : db.invitations.any (fun i => i.contest == id) = true := by
    rw [List.any_eq_true]
    exact ⟨inv, hmem, by simp [hc]⟩
  constructor
  · simp [deleteContest, hany]
  · simp [dbAfterDeleteContest, deleteContest, hany]

/-- Witness for C9 at a concrete store: one contest with one invitation. -/
theorem c9_delete_contest_with_invitations_fails_unchanged_witness :
    deleteContest
        (Db.mk [User.mk 1 "a" none none, User.mk 2 "b" none none]
          [Channel.mk 3 1 "l" "n"]
          [Contest.mk 7 "c" "p" 10 (some 1) false 3]
          [Invitation.mk 1 2 3 7]) 7 =
        .error "FOREIGN KEY constraint failed" ∧
      dbAfterDeleteContest
        (Db.mk [User.mk 1 "a" none none, User.mk 2 "b" none none]
          [Channel.mk 3 1 "l" "n"]
          [Contest.mk 7 "c" "p" 10 (some 1) false 3]
          [Invitation.mk 1 2 3 7]) 7 =
        (Db.mk [User.mk 1 "a" none none, User.mk 2 "b" none none]
          [Channel.mk 3 1 "l" "n"]
          [Contest.mk 7 "c" "p" 10 (some 1) false 3]
          [Invitation.mk 1 2 3 7]) :=
  c9_delete_contest_with_invitations_fails_unchanged _ 7
    ⟨Invitation.mk 1 2 3 7, by decide, by decide⟩

/-- Claim C10, counterexample: the claim says every malformed callback data
string — including a recognized action name with missing or non-numeric
arguments — gets a no-op acknowledgement and no crash.  But for the data
string `"manage"` the handler runs `iter.next().unwrap().parse().unwrap()`
on a missing argument token and panics; only strings matching none of the
recognized shapes reach the no-op acknowledgement branch. -/
theorem c10_recognized_action_with_missing_arg_panics :
    parseCallback "manage" = .panicked ∧ parseCallback "manage abc" = .panicked := by
  decide

/-- Claim C10, amended: only a data string that contains neither ✅ nor ❌
and starts with none of the ten recognized action names reaches the final
`else` branch, which answers the callback with the empty acknowledgement
and returns before touching any state; a recognized action name followed by
missing or non-numeric argument tokens panics instead. -/
theorem c10_amended_unrecognized_data_is_noop (data : String)
    (h1 : data.data.contains '✅' = false) (h2 : data.data.contains '❌' = false)
    (h3 : leadsWith "manage" data = false) (h4 : leadsWith "main" data = false)
    (h5 : leadsWith "create" data = false) (h6 : leadsWith "delete_contest" data = false)
    (h7 : leadsWith "start_contest" data = false) (h8 : leadsWith "stop_contest" data = false)
    (h9 : leadsWith "delete" data = false) (h10 : leadsWith "stop" data = false)
    (h11 : leadsWith "start" data = false) (h12 : leadsWith "list" data = false) :
    parseCallback data = .noop := by
  have h1' : '✅' ∉ data.data := by simpa using h1
  have h2' : '❌' ∉ data.data := by simpa using h2
  simp [parseCallback, h1', h2', h3, h4, h5, h6, h7, h8, h9, h10, h11, h12]

/-- Witness for the amended C10 at the concrete data string `"xyzzy 1"`. -/
theorem c10_amended_unrecognized_data_is_noop_witness :
    parseCallback "xyzzy 1" = .noop :=
  c10_amended_unrecognized_data_is_noop "xyzzy 1" (by decide) (by decide) (by decide)
    (by decide) (by decide) (by decide) (by decide) (by decide) (by decide) (by decide)
    (by decide) (by decide)

end Raf
